import Mathlib

/-!
# Verification of the BrickBreaker game (brick.py)

A shallow embedding of the game's core logic.  Canvas coordinates and
velocities are modelled as real numbers (Python floats), scores as naturals,
lives as integers.  Tk canvas items are elided: an entity's geometry is kept
directly in its record, and `canvas.coords`/`canvas.move` become field
updates.  `canvas.find_overlapping` is modelled as a closed-interval
bounding-box overlap test against the brick list (brick canvas items are
created in list order, so iterating the overlap result restricted to bricks
coincides with iterating the brick list filtered by overlap).  Python's
`ZeroDivisionError` in `Ball.set_speed` is modelled by returning `none`.
-/

namespace BrickGame

noncomputable section

/-- Field width: `BrickBreaker.__init__` default `width=720`
(also `Paddle.canvas_width`). -/
def fieldW : ℝ := 720

/-- Field height: `BrickBreaker.__init__` default `height=520`. -/
def fieldH : ℝ := 520

/-- The dictionary `Brick.COLORS` read through `.get(hits, '#CCCCCC')`. -/
def brickColors (hits : ℤ) : String :=
  if hits = 1 then "#4535AA"
  else if hits = 2 then "#ED639E"
  else if hits = 3 then "#8FE1A2"
  else "#CCCCCC"

/-- A brick: center position, remaining hits, current fill color.
Width 75 and height 20 are the constants set in `Brick.__init__`. -/
structure Brick where
  x : ℝ
  y : ℝ
  hits : ℤ
  color : String

/-- The constructor `Brick.__init__(canvas, x, y, hits)`. -/
def Brick.make (x y : ℝ) (hits : ℤ) : Brick :=
  ⟨x, y, hits, brickColors hits⟩

/-- The method `Brick.hit`: decrement `hits`; destroyed (and deleted from the
canvas) when the result is ≤ 0, otherwise recolored by the new tier.
Returns (destroyed?, updated brick). -/
def Brick.hit (b : Brick) : Bool × Brick :=
  let hits' := b.hits - 1
  if hits' ≤ 0 then (true, { b with hits := hits' })
  else (false, { b with hits := hits', color := brickColors hits' })

/-- A paddle: rectangle corners and the stored `width` attribute (the
attribute is set once in `Paddle.__init__` and never updated, even when
`move_to` changes the rectangle). -/
structure Paddle where
  x1 : ℝ
  y1 : ℝ
  x2 : ℝ
  y2 : ℝ
  width : ℝ

/-- The constructor `Paddle.__init__(canvas, x, y, width, height)`. -/
def Paddle.make (x y width height : ℝ) : Paddle :=
  ⟨x - width / 2, y - height / 2, x + width / 2, y + height / 2, width⟩

/-- The method `Paddle.move_to(x_center)`: each edge is clamped on its own,
`x1 = max(0, x_center - half)` and `x2 = min(canvas_width, x_center + half)`. -/
def Paddle.move_to (p : Paddle) (x_center : ℝ) : Paddle :=
  let half := p.width / 2
  { p with x1 := max 0 (x_center - half), x2 := min fieldW (x_center + half) }

/-- A ball: bounding-box corners (the oval's coords), velocity, and the
scalar `speed` attribute. The radius attribute is the constant 8 wherever
the game constructs or repositions a ball. -/
structure Ball where
  x1 : ℝ
  y1 : ℝ
  x2 : ℝ
  y2 : ℝ
  vx : ℝ
  vy : ℝ
  speed : ℝ

/-- The constructor `Ball.__init__(canvas, x, y, radius, speed)` at a given
draw `angle` of `random.uniform(30, 150)`:
`vx = speed*cos(radians(angle))`, `vy = -abs(speed*sin(radians(angle)))`. -/
def Ball.make (x y radius speed angle : ℝ) : Ball :=
  let rad := angle * (Real.pi / 180)
  ⟨x - radius, y - radius, x + radius, y + radius,
   speed * Real.cos rad, -|speed * Real.sin rad|, speed⟩

/-- The method `Ball.move`: `canvas.move(item, vx, vy)`. -/
def Ball.move (b : Ball) : Ball :=
  { b with x1 := b.x1 + b.vx, y1 := b.y1 + b.vy,
           x2 := b.x2 + b.vx, y2 := b.y2 + b.vy }

/-- The method `Ball.bounce_x`: `vx = -vx`. -/
def Ball.bounce_x (b : Ball) : Ball := { b with vx := -b.vx }

/-- The method `Ball.bounce_y`: `vy = -vy`. -/
def Ball.bounce_y (b : Ball) : Ball := { b with vy := -b.vy }

/-- The method `Ball.set_speed(speed)`: `mag = hypot(vx, vy)`;
`scale = speed / mag` raises `ZeroDivisionError` when `mag == 0`
(modelled as `none`); otherwise `vx *= scale`, `vy *= scale`,
`self.speed = speed`. -/
def Ball.set_speed (b : Ball) (speed : ℝ) : Option Ball :=
  let mag := Real.sqrt (b.vx ^ 2 + b.vy ^ 2)
  if mag = 0 then none
  else some { b with vx := b.vx * (speed / mag), vy := b.vy * (speed / mag),
                     speed := speed }

/-- The method `Ball.increase_speed(delta)`: `set_speed(speed + delta)`. -/
def Ball.increase_speed (b : Ball) (delta : ℝ) : Option Ball :=
  b.set_speed (b.speed + delta)

/-- The game state held by the `BrickBreaker` object (presentation-only
fields — canvas, text items, background image — are elided). -/
structure BrickBreaker where
  score : ℕ
  level : ℕ
  lives : ℤ
  started : Bool
  paused : Bool
  paddle : Paddle
  ball : Ball
  bricks : List Brick

/-- The grid produced by `BrickBreaker.build_level(level)`:
`rows = min(6, 3+level)`, `cols = 8`, `mx = 60`,
`spacing_x = (width - 2*mx)/cols`, `top_y = 60`; the brick at row `r`,
column `c` sits at `x = mx + spacing_x*c + spacing_x/2`, `y = top_y + r*26`
with `hits = min(3, 1 + (r + level) // 2)`.  `levelRow` is one iteration of
the outer `for r in range(rows)` loop (the inner `for c in range(cols)`),
with `mx = 60`, `spacing_x = (width - 2*mx)/cols`, `cols = 8`, `top_y = 60`
inlined. -/
def levelRow (level r : ℕ) : List Brick :=
  (List.range 8).map fun (c : ℕ) =>
    Brick.make (60 + (fieldW - 2 * 60) / 8 * (c : ℝ) + (fieldW - 2 * 60) / 8 / 2)
      (60 + (r : ℝ) * 26) ((min 3 (1 + (r + level) / 2) : ℕ) : ℤ)

/-- All `rows = min(6, 3 + level)` rows of the grid of
`BrickBreaker.build_level(level)`. -/
def buildLevel (level : ℕ) : List Brick :=
  (List.range (min 6 (3 + level))).flatMap (levelRow level)

/-- The method `BrickBreaker.build_level(level)`: deletes every existing
brick (`b.delete()` for each, then `bricks.clear()`) and appends the fresh
grid, i.e. replaces `bricks` by `buildLevel level`. -/
def BrickBreaker.build_level (g : BrickBreaker) (level : ℕ) : BrickBreaker :=
  { g with bricks := buildLevel level }

/-- Wall phase of `BrickBreaker.check_collision`: with the ball's coords
snapshot `(bx1, by1, bx2, by2)`, `bounce_x` when `bx1 <= 0 or bx2 >= width`,
then `bounce_y` when `by1 <= 0` (positions are unchanged by bounces, so the
snapshot equals the current coords throughout). -/
def wallBounce (g : BrickBreaker) : BrickBreaker :=
  let b := g.ball
  let b1 := if b.x1 ≤ 0 ∨ b.x2 ≥ fieldW then b.bounce_x else b
  let b2 := if b.y1 ≤ 0 then b1.bounce_y else b1
  { g with ball := b2 }

/-- Paddle phase of `BrickBreaker.check_collision`: when
`by2 >= py1 and bx2 >= px1 and bx1 <= px2 and vy > 0`, set
`vx = speed*sin(angle)`, `vy = -abs(speed*cos(angle))` with
`angle = offset * radians(75)` and
`offset = (ball_center - paddle_center) / (paddle.width / 2)`. -/
def paddleBounce (g : BrickBreaker) : BrickBreaker :=
  let b := g.ball
  let p := g.paddle
  if b.y2 ≥ p.y1 ∧ b.x2 ≥ p.x1 ∧ b.x1 ≤ p.x2 ∧ 0 < b.vy then
    let paddle_center := (p.x1 + p.x2) / 2
    let ball_center := (b.x1 + b.x2) / 2
    let offset := (ball_center - paddle_center) / (p.width / 2)
    let angle := offset * (75 * (Real.pi / 180))
    { g with ball := { b with vx := b.speed * Real.sin angle,
                              vy := -|b.speed * Real.cos angle| } }
  else g

/-- Bounding-box overlap between the ball's coords snapshot and a brick's
rectangle, modelling `canvas.find_overlapping(bx1, by1, bx2, by2)` restricted
to items tagged `'brick'`. -/
def overlapsBall (bx1 by1 bx2 by2 : ℝ) (br : Brick) : Prop :=
  bx1 ≤ br.x + 75 / 2 ∧ br.x - 75 / 2 ≤ bx2 ∧
  by1 ≤ br.y + 20 / 2 ∧ br.y - 20 / 2 ≤ by2

instance decOverlapsBall (bx1 by1 bx2 by2 : ℝ) (br : Brick) :
    Decidable (overlapsBall bx1 by1 bx2 by2 br) := by
  unfold overlapsBall; exact inferInstance

/-- Result of the brick loop: surviving bricks, ball `vy`, score. -/
structure HitResult where
  bricks : List Brick
  vy : ℝ
  score : ℕ

/-- Brick phase of `BrickBreaker.check_collision`: for each brick in the
precomputed overlap set (in canvas stacking = creation = list order):
`destroyed = b.hit()`; `score += 10 if destroyed else 5`; destroyed bricks
are removed from the list; `ball.bounce_y()` once per processed brick. -/
def brickHits (bx1 by1 bx2 by2 : ℝ) : List Brick → ℝ → ℕ → HitResult
  | [], vy, score => ⟨[], vy, score⟩
  | b :: rest, vy, score =>
    if overlapsBall bx1 by1 bx2 by2 b then
      let hb := b.hit
      let r := brickHits bx1 by1 bx2 by2 rest (-vy)
        (score + if hb.1 then 10 else 5)
      if hb.1 then r else ⟨hb.2 :: r.bricks, r.vy, r.score⟩
    else
      let r := brickHits bx1 by1 bx2 by2 rest vy score
      ⟨b :: r.bricks, r.vy, r.score⟩

/-- Brick phase applied to the game state. -/
def brickBounce (g : BrickBreaker) : BrickBreaker :=
  let b := g.ball
  let r := brickHits b.x1 b.y1 b.x2 b.y2 g.bricks b.vy g.score
  { g with bricks := r.bricks, ball := { b with vy := r.vy }, score := r.score }

/-- The method `BrickBreaker.check_collision`: wall phase, then paddle
phase, then brick phase (all on the same position snapshot — no phase moves
the ball, only velocities change). -/
def BrickBreaker.check_collision (g : BrickBreaker) : BrickBreaker :=
  brickBounce (paddleBounce (wallBounce g))

/-- The method `BrickBreaker.game_over`: shows the final texts and sets
`started = False`, `paused = True`. -/
def BrickBreaker.game_over (g : BrickBreaker) : BrickBreaker :=
  { g with started := false, paused := true }

/-- The repositioning `canvas.coords(ball.item, px-8, height-60-8, px+8,
height-60+8)` with `px` the paddle's current center, performed after a life
loss (with lives remaining) and after a level clear. The ball object is
reused: velocity and speed are untouched. -/
def repositionBall (g : BrickBreaker) : BrickBreaker :=
  let px := (g.paddle.x1 + g.paddle.x2) / 2
  { g with ball := { g.ball with x1 := px - 8, y1 := fieldH - 60 - 8,
                                 x2 := px + 8, y2 := fieldH - 60 + 8 } }

/-- The `if not self.bricks` branch of `BrickBreaker.loop`: level up, bump
the ball speed by 0.8 (a `ZeroDivisionError` from `set_speed` propagates as
`none`), rebuild the level, re-park the ball, wait for the start key. -/
def levelCheck (g : BrickBreaker) : Option BrickBreaker :=
  if g.bricks.isEmpty then
    let level' := g.level + 1
    match g.ball.increase_speed (0.8 : ℝ) with
    | none => none
    | some b =>
      some { repositionBall { g with level := level', ball := b,
                                     bricks := buildLevel level' }
             with started := false }
  else some g

/-- The `if by2 >= height` branch of `BrickBreaker.loop` followed by the
level check: lose a life; at `lives <= 0` call `game_over` and return
(skipping the level check); otherwise re-park the ball, clear `started`,
and fall through to the level check. -/
def lifeCheck (g : BrickBreaker) : Option BrickBreaker :=
  if g.ball.y2 ≥ fieldH then
    let g1 := { g with lives := g.lives - 1 }
    if g1.lives ≤ 0 then some g1.game_over
    else levelCheck { repositionBall g1 with started := false }
  else levelCheck g

/-- One body of `BrickBreaker.loop` (one tick): when not paused and started,
move the ball, resolve collisions, then run the life and level checks;
otherwise the simulation state is unchanged (only texts are redrawn). -/
def BrickBreaker.loop (g : BrickBreaker) : Option BrickBreaker :=
  if g.paused = false ∧ g.started = true then
    lifeCheck (BrickBreaker.check_collision { g with ball := g.ball.move })
  else some g

/-- The handler `BrickBreaker.mouse_move(e)`: move the paddle to the
pointer; while not started and not paused, drag the ball horizontally to the
paddle's center. -/
def BrickBreaker.mouse_move (g : BrickBreaker) (x : ℝ) : BrickBreaker :=
  let g1 := { g with paddle := g.paddle.move_to x }
  if g1.started = false ∧ g1.paused = false then
    let px := (g1.paddle.x1 + g1.paddle.x2) / 2
    let cx := (g1.ball.x1 + g1.ball.x2) / 2
    let dx := px - cx
    { g1 with ball := { g1.ball with x1 := g1.ball.x1 + dx,
                                     x2 := g1.ball.x2 + dx } }
  else g1

/-- The handler `BrickBreaker.keyboard_move(delta)`: move the paddle to its
current center plus `delta`. -/
def BrickBreaker.keyboard_move (g : BrickBreaker) (delta : ℝ) : BrickBreaker :=
  { g with paddle := g.paddle.move_to ((g.paddle.x1 + g.paddle.x2) / 2 + delta) }

/-- The handler `BrickBreaker.start_ball`: set `started` when not started. -/
def BrickBreaker.start_ball (g : BrickBreaker) : BrickBreaker :=
  if g.started = false then { g with started := true } else g

/-- The handler `BrickBreaker.toggle_pause`: flip `paused`. -/
def BrickBreaker.toggle_pause (g : BrickBreaker) : BrickBreaker :=
  { g with paused := !g.paused }

/-- The state built by `BrickBreaker.__init__` (with the ball's random
launch angle as a parameter): score 0, level 1, lives 3, not started, not
paused, paddle at `(width/2, height-30)` with default size `110 × 12`, ball
at `(width/2, height-60)` with radius 8 and speed 5, bricks of level 1. -/
def initGame (angle : ℝ) : BrickBreaker :=
  { score := 0, level := 1, lives := 3, started := false, paused := false,
    paddle := Paddle.make (fieldW / 2) (fieldH - 30) 110 12,
    ball := Ball.make (fieldW / 2) (fieldH - 60) 8 5 angle,
    bricks := buildLevel 1 }

/-- One step within a session: a tick of the loop or one of the input
handlers that do not restart the game. -/
inductive SessionStep : BrickBreaker → BrickBreaker → Prop
  | tickStep (g g' : BrickBreaker) : BrickBreaker.loop g = some g' →
      SessionStep g g'
  | mouse (g : BrickBreaker) (x : ℝ) : SessionStep g (g.mouse_move x)
  | key (g : BrickBreaker) (d : ℝ) : SessionStep g (g.keyboard_move d)
  | start (g : BrickBreaker) : SessionStep g g.start_ball
  | pause (g : BrickBreaker) : SessionStep g g.toggle_pause

/-- States reachable within one session started at launch angle `angle`. -/
def Reachable (angle : ℝ) (g : BrickBreaker) : Prop :=
  Relation.ReflTransGen SessionStep (initGame angle) g

/-- The two-argument arctangent `atan2(y, x)` as the argument of the complex
number `x + y i`. -/
def atan2 (y x : ℝ) : ℝ := Complex.arg (Complex.ofReal x + Complex.ofReal y * Complex.I)

/-- Number of bricks in `l` overlapping the given ball box. -/
def overlapCount (bx1 by1 bx2 by2 : ℝ) (l : List Brick) : ℕ :=
  l.countP fun b => decide (overlapsBall bx1 by1 bx2 by2 b)

/-- A game state used to instantiate several theorems on concrete inputs. -/
def testGame : BrickBreaker :=
  { score := 0, level := 1, lives := 3, started := true, paused := false,
    paddle := Paddle.make (fieldW / 2) (fieldH - 30) 110 12,
    ball := ⟨-2, 100, 14, 116, 3, 4, 5⟩,
    bricks := [] }

end

/-! ## Helper lemmas -/

lemma sq_add_sq_pos_of_not_both_zero {a b : ℝ} (h : ¬(a = 0 ∧ b = 0)) :
    0 < a ^ 2 + b ^ 2 := by
  rcases not_and_or.mp h with h1 | h1
  · have ha : 0 < a ^ 2 := lt_of_le_of_ne (sq_nonneg a) (Ne.symm (pow_ne_zero 2 h1))
    have := sq_nonneg b
    linarith
  · have hb : 0 < b ^ 2 := lt_of_le_of_ne (sq_nonneg b) (Ne.symm (pow_ne_zero 2 h1))
    have := sq_nonneg a
    linarith

lemma hypot_sin_cos (s θ : ℝ) (hs : 0 ≤ s) :
    Real.sqrt ((s * Real.sin θ) ^ 2 + (s * Real.cos θ) ^ 2) = s := by
  rw [show (s * Real.sin θ) ^ 2 + (s * Real.cos θ) ^ 2
        = s ^ 2 * (Real.sin θ ^ 2 + Real.cos θ ^ 2) from by ring,
      Real.sin_sq_add_cos_sq, mul_one, Real.sqrt_sq hs]

lemma hypot_scale (vx vy c : ℝ) (hc : 0 ≤ c) :
    Real.sqrt ((vx * c) ^ 2 + (vy * c) ^ 2)
      = c * Real.sqrt (vx ^ 2 + vy ^ 2) := by
  rw [show (vx * c) ^ 2 + (vy * c) ^ 2 = c ^ 2 * (vx ^ 2 + vy ^ 2) from by ring,
      Real.sqrt_mul (sq_nonneg c), Real.sqrt_sq hc]

lemma flatMap_range_length {α : Type*} (f : ℕ → List α) (w : ℕ)
    (hw : ∀ i, (f i).length = w) (n : ℕ) :
    ((List.range n).flatMap f).length = n * w := by
  rw [List.length_flatMap,
    show (List.length ∘ f) = fun _ => w from funext fun i => hw i,
    List.map_const', List.length_range, List.sum_replicate, smul_eq_mul]

lemma flatMap_range_getElem {α : Type*} (f : ℕ → List α) (w : ℕ)
    (hw : ∀ i, (f i).length = w) :
    ∀ n r c, r < n → c < w →
      ((List.range n).flatMap f)[w * r + c]? = (f r)[c]? := by
  intro n
  induction n with
  | zero => exact fun r c hr _ => absurd hr (Nat.not_lt_zero r)
  | succ n ih =>
    intro r c hr hc
    rw [List.range_succ, List.flatMap_append]
    rcases Nat.lt_or_ge r n with h | h
    · rw [List.getElem?_append, if_pos, ih r c h hc]
      rw [flatMap_range_length f w hw n]
      calc w * r + c < w * r + w := Nat.add_lt_add_left hc _
        _ = w * (r + 1) := (Nat.mul_succ w r).symm
        _ ≤ w * n := Nat.mul_le_mul_left w (Nat.succ_le_of_lt h)
        _ = n * w := Nat.mul_comm w n
    · have hrn : r = n := Nat.le_antisymm (Nat.lt_succ_iff.mp hr) h
      subst hrn
      rw [List.getElem?_append, if_neg, flatMap_range_length f w hw r,
        Nat.mul_comm w r, Nat.add_sub_cancel_left]
      · simp
      · rw [flatMap_range_length f w hw r, Nat.mul_comm w r]
        omega

/-! ## Claim C3: `Ball.set_speed` on a zero-magnitude velocity -/

/-- A ball whose velocity is the zero vector, as `set_speed`'s degenerate
input. -/
noncomputable def stillBall : Ball := ⟨100, 100, 116, 116, 0, 0, 5⟩

/-- C3 counterexample: with zero current magnitude, `set_speed` is not a
silent no-op — `scale = speed / mag` raises `ZeroDivisionError` (modelled
`none`), so the call does not return the unchanged ball. -/
theorem C3_cex_set_speed_zero_raises :
    stillBall.set_speed 7 = none ∧ stillBall.set_speed 7 ≠ some stillBall := by
  have h : stillBall.set_speed 7 = none := by
    simp [Ball.set_speed, stillBall]
  exact ⟨h, by simp [h]⟩

/-- C3 (amended): `set_speed(newSpeed)` with zero current magnitude raises
`ZeroDivisionError` (modelled `none`); with non-zero current magnitude it
succeeds and rescales `(vx, vy)` to magnitude `newSpeed` preserving the
direction (the new velocity is a positive scalar multiple of the old). -/
theorem C3_set_speed_spec (b : Ball) (s : ℝ) :
    (b.vx = 0 ∧ b.vy = 0 → b.set_speed s = none)
    ∧ (¬(b.vx = 0 ∧ b.vy = 0) →
        b.set_speed s = some { b with
            vx := b.vx * (s / Real.sqrt (b.vx ^ 2 + b.vy ^ 2)),
            vy := b.vy * (s / Real.sqrt (b.vx ^ 2 + b.vy ^ 2)),
            speed := s }
        ∧ (0 ≤ s → Real.sqrt ((b.vx * (s / Real.sqrt (b.vx ^ 2 + b.vy ^ 2))) ^ 2
              + (b.vy * (s / Real.sqrt (b.vx ^ 2 + b.vy ^ 2))) ^ 2) = s)
        ∧ (0 < s → 0 < s / Real.sqrt (b.vx ^ 2 + b.vy ^ 2))) := by
  constructor
  · rintro ⟨h1, h2⟩
    simp [Ball.set_speed, h1, h2]
  · intro h
    have hpos : 0 < b.vx ^ 2 + b.vy ^ 2 := sq_add_sq_pos_of_not_both_zero h
    have hmag : 0 < Real.sqrt (b.vx ^ 2 + b.vy ^ 2) := Real.sqrt_pos.mpr hpos
    refine ⟨?_, ?_, ?_⟩
    · simp only [Ball.set_speed]
      rw [if_neg (ne_of_gt hmag)]
    · intro hs
      rw [hypot_scale _ _ _ (div_nonneg hs hmag.le), mul_comm]
      field_simp
    · intro hs
      exact div_pos hs hmag

/-- C3 witness: the amended theorem at a concrete ball `(vx, vy) = (3, 4)`
of magnitude 5 and `newSpeed = 10`. -/
theorem C3_witness :
    ¬((3 : ℝ) = 0 ∧ (4 : ℝ) = 0) ∧
      (Ball.mk 100 100 116 116 3 4 5).set_speed 10
        = some { Ball.mk 100 100 116 116 3 4 5 with
            vx := 3 * (10 / Real.sqrt ((3 : ℝ) ^ 2 + (4 : ℝ) ^ 2)),
            vy := 4 * (10 / Real.sqrt ((3 : ℝ) ^ 2 + (4 : ℝ) ^ 2)),
            speed := 10 } :=
  ⟨by norm_num,
   ((C3_set_speed_spec (Ball.mk 100 100 116 116 3 4 5) 10).2 (by norm_num)).1⟩

/-! ## Claim C4: `Paddle.move_to` clamping -/

/-- The paddle as built by `BrickBreaker.__init__`. -/
noncomputable def gamePaddle : Paddle := Paddle.make (fieldW / 2) (fieldH - 30) 110 12

/-- C4 counterexample: `move_to 0` on the game's paddle yields the box
`[0, 55]` — the nearer edge is at the boundary, but the width shrinks from
110 to 55 and the resulting center 27.5 is not the clamped center 55, so
the paddle's full width is not preserved. -/
theorem C4_cex_move_to_shrinks :
    (gamePaddle.move_to 0).x1 = 0 ∧ (gamePaddle.move_to 0).x2 = 55
    ∧ (gamePaddle.move_to 0).x2 - (gamePaddle.move_to 0).x1 ≠ gamePaddle.width
    ∧ ((gamePaddle.move_to 0).x1 + (gamePaddle.move_to 0).x2) / 2 ≠ 55 := by
  norm_num [gamePaddle, Paddle.make, Paddle.move_to, fieldW, fieldH, max_def, min_def]

/-- C4 (amended): `move_to(x)` clamps each stored edge independently,
`x1 = max(0, x - half)` and `x2 = min(field_width, x + half)`: the stored
left edge is never negative and the stored right edge never exceeds the
field width.  For `x` inside `[half, field_width - half]` the paddle is
exactly `[x - half, x + half]` (full width, center `x`).  For every `x`
below `half` the left edge sits exactly at 0 and the right at `x + half`,
so the width strictly shrinks and the resulting center lies strictly left
of the clamped center `half`; symmetrically, for every `x` above
`field_width - half` the right edge sits exactly at the field width and the
left at `x - half`, the width strictly shrinks and the center lies strictly
right of the clamped center `field_width - half`.  The full width (and
hence `center = clamped x`) is not preserved out of range.  The hypothesis
`width ≤ field_width` holds for the game's paddle (110 and 720). -/
theorem C4_move_to_clamp (p : Paddle) (x : ℝ) (hW : p.width ≤ fieldW) :
    0 ≤ (p.move_to x).x1 ∧ (p.move_to x).x2 ≤ fieldW
    ∧ (p.width / 2 ≤ x → x ≤ fieldW - p.width / 2 →
        (p.move_to x).x1 = x - p.width / 2 ∧ (p.move_to x).x2 = x + p.width / 2)
    ∧ (x < p.width / 2 →
        (p.move_to x).x1 = 0 ∧ (p.move_to x).x2 = x + p.width / 2
        ∧ (p.move_to x).x2 - (p.move_to x).x1 < p.width
        ∧ ((p.move_to x).x1 + (p.move_to x).x2) / 2 < p.width / 2)
    ∧ (fieldW - p.width / 2 < x →
        (p.move_to x).x2 = fieldW ∧ (p.move_to x).x1 = x - p.width / 2
        ∧ (p.move_to x).x2 - (p.move_to x).x1 < p.width
        ∧ fieldW - p.width / 2 < ((p.move_to x).x1 + (p.move_to x).x2) / 2) := by
  simp only [Paddle.move_to]
  refine ⟨le_max_left 0 _, min_le_left _ _, fun h1 h2 => ⟨?_, ?_⟩,
    fun h => ?_, fun h => ?_⟩
  · exact max_eq_right (by linarith)
  · exact min_eq_right (by linarith)
  · have hx1 : max 0 (x - p.width / 2) = 0 := max_eq_left (by linarith)
    have hx2 : min fieldW (x + p.width / 2) = x + p.width / 2 :=
      min_eq_right (by linarith)
    rw [hx1, hx2]
    exact ⟨rfl, rfl, by linarith, by linarith⟩
  · have hx2 : min fieldW (x + p.width / 2) = fieldW := min_eq_left (by linarith)
    have hx1 : max 0 (x - p.width / 2) = x - p.width / 2 :=
      max_eq_right (by linarith)
    rw [hx1, hx2]
    exact ⟨rfl, rfl, by linarith, by linarith⟩

/-- C4 witness: the amended theorem at the game's 110-wide paddle and the
out-of-range input `x = 30 < 55`: the left edge lands exactly at 0, the
right at 85, the width strictly shrinks below 110, and the center 42.5 lies
strictly left of the clamped center 55. -/
theorem C4_witness :
    (30 : ℝ) < gamePaddle.width / 2
    ∧ (gamePaddle.move_to 30).x1 = 0
    ∧ (gamePaddle.move_to 30).x2 = 30 + gamePaddle.width / 2
    ∧ (gamePaddle.move_to 30).x2 - (gamePaddle.move_to 30).x1 < gamePaddle.width
    ∧ ((gamePaddle.move_to 30).x1 + (gamePaddle.move_to 30).x2) / 2
        < gamePaddle.width / 2 := by
  have hw : gamePaddle.width = 110 := by norm_num [gamePaddle, Paddle.make]
  have h := (C4_move_to_clamp gamePaddle 30
    (by rw [hw]; norm_num [fieldW])).2.2.2.1 (by rw [hw]; norm_num)
  exact ⟨by rw [hw]; norm_num, h.1, h.2.1, h.2.2.1, h.2.2.2⟩

/-! ## Claim C9: wall collision has no direction guard -/

/-- C9: the wall phase negates `vx` exactly when the ball's left edge is
≤ 0 or its right edge is ≥ field width, and negates `vy` exactly when its
top edge is ≤ 0, with no test of the velocity's sign: in particular a ball
still touching the left wall with `vx` already positive has `vx` negated
back toward the wall. Positions are unchanged. -/
theorem C9_wall_unconditional (g : BrickBreaker) :
    ((g.ball.x1 ≤ 0 ∨ g.ball.x2 ≥ fieldW) → (wallBounce g).ball.vx = -g.ball.vx)
    ∧ (¬(g.ball.x1 ≤ 0 ∨ g.ball.x2 ≥ fieldW) → (wallBounce g).ball.vx = g.ball.vx)
    ∧ (g.ball.y1 ≤ 0 → (wallBounce g).ball.vy = -g.ball.vy)
    ∧ (¬g.ball.y1 ≤ 0 → (wallBounce g).ball.vy = g.ball.vy)
    ∧ (g.ball.x1 ≤ 0 → 0 < g.ball.vx → (wallBounce g).ball.vx < 0)
    ∧ (wallBounce g).ball.x1 = g.ball.x1 ∧ (wallBounce g).ball.y1 = g.ball.y1
    ∧ (wallBounce g).ball.x2 = g.ball.x2 ∧ (wallBounce g).ball.y2 = g.ball.y2 := by
  by_cases h1 : g.ball.x1 ≤ 0 ∨ g.ball.x2 ≥ fieldW <;>
    by_cases h2 : g.ball.y1 ≤ 0 <;>
      simp [wallBounce, Ball.bounce_x, Ball.bounce_y, h1, h2] <;>
        intro h3 h4 <;> first
          | linarith
          | exact absurd (Or.inl h3) h1

/-- C9 witness: a concrete state with the ball's left edge at `-2` and
`vx = 3 > 0`: the wall phase sends `vx` to a negative value. -/
theorem C9_witness : (wallBounce testGame).ball.vx < 0 :=
  (C9_wall_unconditional testGame).2.2.2.2.1
    (by norm_num [testGame]) (by norm_num [testGame])

/-! ## Claim C7: the level builder -/

/-- C7: `build_level(L)` replaces the brick set (the old bricks are all
deleted; the result does not depend on them) by a deterministic grid of
exactly `min(6, 3+L) * 8` bricks; the brick in row `r`, column `c` sits at
`x = mx + spacing_x*c + spacing_x/2`, `y = 60 + 26r` and carries hit count
`min(3, 1 + (r + L) // 2)`. -/
theorem C7_build_level (L : ℕ) (g : BrickBreaker) :
    (g.build_level L).bricks = buildLevel L
    ∧ (buildLevel L).length = min 6 (3 + L) * 8
    ∧ ∀ r c : ℕ, r < min 6 (3 + L) → c < 8 →
        (buildLevel L)[8 * r + c]? =
          some (Brick.make
            (60 + (fieldW - 2 * 60) / 8 * (c : ℝ) + (fieldW - 2 * 60) / 8 / 2)
            (60 + (r : ℝ) * 26)
            ((min 3 (1 + (r + L) / 2) : ℕ) : ℤ)) := by
  have hw : ∀ i : ℕ, (levelRow L i).length = 8 := by
    intro i
    rw [levelRow, List.length_map, List.length_range]
  refine ⟨rfl, ?_, ?_⟩
  · rw [buildLevel, flatMap_range_length _ 8 hw (min 6 (3 + L)), Nat.mul_comm]
  · intro r c hr hc
    rw [buildLevel, flatMap_range_getElem _ 8 hw (min 6 (3 + L)) r c hr hc,
      levelRow, List.getElem?_map, List.getElem?_range hc, Option.map_some']

/-- C7 witness: at level 1 the grid has `4 * 8 = 32` bricks, and the brick
in row 1, column 2 has hit count `min(3, 1 + (1+1)//2) = 2`. -/
theorem C7_witness :
    (1 : ℕ) < min 6 (3 + 1) ∧ (2 : ℕ) < 8
    ∧ (buildLevel 1).length = 32
    ∧ (buildLevel 1)[8 * 1 + 2]? =
        some (Brick.make
          (60 + (fieldW - 2 * 60) / 8 * ((2 : ℕ) : ℝ) + (fieldW - 2 * 60) / 8 / 2)
          (60 + ((1 : ℕ) : ℝ) * 26) ((min 3 (1 + (1 + 1) / 2) : ℕ) : ℤ)) := by
  refine ⟨by norm_num, by norm_num, ?_, ?_⟩
  · have h := (C7_build_level 1 testGame).2.1
    simpa using h
  · exact (C7_build_level 1 testGame).2.2 1 2 (by norm_num) (by norm_num)

/-! ## Claim C2: brick collision processing -/

lemma brickHits_spec (bx1 by1 bx2 by2 : ℝ) :
    ∀ (l : List Brick) (vy : ℝ) (score : ℕ),
      (brickHits bx1 by1 bx2 by2 l vy score).bricks
        = l.filterMap (fun b =>
            if overlapsBall bx1 by1 bx2 by2 b then
              if b.hits - 1 ≤ 0 then none
              else some ⟨b.x, b.y, b.hits - 1, brickColors (b.hits - 1)⟩
            else some b)
      ∧ (brickHits bx1 by1 bx2 by2 l vy score).vy
          = (-1) ^ overlapCount bx1 by1 bx2 by2 l * vy
      ∧ (brickHits bx1 by1 bx2 by2 l vy score).score
          = score
            + 10 * (l.countP fun b =>
                decide (overlapsBall bx1 by1 bx2 by2 b ∧ b.hits - 1 ≤ 0))
            + 5 * (l.countP fun b =>
                decide (overlapsBall bx1 by1 bx2 by2 b ∧ 0 < b.hits - 1)) := by
  intro l
  induction l with
  | nil => intro vy score; simp [brickHits, overlapCount]
  | cons b rest ih =>
    intro vy score
    by_cases hov : overlapsBall bx1 by1 bx2 by2 b
    · by_cases hdes : b.hits - 1 ≤ 0
      · have h := ih (-vy) (score + 10)
        simp only [brickHits, Brick.hit, if_pos hov, if_pos hdes, if_true]
        refine ⟨?_, ?_, ?_⟩
        · rw [h.1, List.filterMap_cons]
          simp [hov, hdes]
        · rw [h.2.1]
          simp only [overlapCount, List.countP_cons, decide_eq_true_eq, if_pos hov]
          ring
        · rw [h.2.2]
          have h10 : (rest.countP fun x =>
              decide (overlapsBall bx1 by1 bx2 by2 x ∧ x.hits - 1 ≤ 0)) + 1
              = (b :: rest).countP fun x =>
                  decide (overlapsBall bx1 by1 bx2 by2 x ∧ x.hits - 1 ≤ 0) := by
            simp [List.countP_cons, hov, show b.hits ≤ 1 from by omega]
          have h5 : (rest.countP fun x =>
              decide (overlapsBall bx1 by1 bx2 by2 x ∧ 0 < x.hits - 1))
              = (b :: rest).countP fun x =>
                  decide (overlapsBall bx1 by1 bx2 by2 x ∧ 0 < x.hits - 1) := by
            simp [List.countP_cons, hov, show ¬(1 < b.hits) from by omega]
          omega
      · have h := ih (-vy) (score + 5)
        simp only [brickHits, Brick.hit, if_pos hov, if_neg hdes,
          Bool.false_eq_true, if_false]
        refine ⟨?_, ?_, ?_⟩
        · rw [List.filterMap_cons]
          simp only [if_pos hov, if_neg hdes]
          rw [h.1]
        · rw [h.2.1]
          simp only [overlapCount, List.countP_cons, decide_eq_true_eq, if_pos hov]
          ring
        · rw [h.2.2]
          have h10 : (rest.countP fun x =>
              decide (overlapsBall bx1 by1 bx2 by2 x ∧ x.hits - 1 ≤ 0))
              = (b :: rest).countP fun x =>
                  decide (overlapsBall bx1 by1 bx2 by2 x ∧ x.hits - 1 ≤ 0) := by
            simp [List.countP_cons, hov, show ¬(b.hits ≤ 1) from by omega]
          have h5 : (rest.countP fun x =>
              decide (overlapsBall bx1 by1 bx2 by2 x ∧ 0 < x.hits - 1)) + 1
              = (b :: rest).countP fun x =>
                  decide (overlapsBall bx1 by1 bx2 by2 x ∧ 0 < x.hits - 1) := by
            simp [List.countP_cons, hov, show 1 < b.hits from by omega]
          omega
    · have h := ih vy score
      simp only [brickHits, if_neg hov]
      refine ⟨?_, ?_, ?_⟩
      · rw [List.filterMap_cons]
        simp only [if_neg hov]
        rw [h.1]
      · rw [h.2.1]
        simp only [overlapCount, List.countP_cons, decide_eq_true_eq, if_neg hov,
          Nat.add_zero]
      · rw [h.2.2]
        have h10 : (rest.countP fun x =>
            decide (overlapsBall bx1 by1 bx2 by2 x ∧ x.hits - 1 ≤ 0))
            = (b :: rest).countP fun x =>
                decide (overlapsBall bx1 by1 bx2 by2 x ∧ x.hits - 1 ≤ 0) := by
          simp [List.countP_cons, hov]
        have h5 : (rest.countP fun x =>
            decide (overlapsBall bx1 by1 bx2 by2 x ∧ 0 < x.hits - 1))
            = (b :: rest).countP fun x =>
                decide (overlapsBall bx1 by1 bx2 by2 x ∧ 0 < x.hits - 1) := by
          simp [List.countP_cons, hov]
        omega

/-- C2: the brick phase processes every brick overlapping the ball's box
(not just the first): each such brick has `hit()` invoked exactly once —
its counter drops by one; it is removed (destroyed, 10 points) iff the new
counter is ≤ 0, and otherwise survives with the decremented counter, the
color of its new tier, and 5 points; non-overlapping bricks are untouched;
and `vy` is negated once per processed brick, so `k` overlaps negate `vy`
exactly `k` times. -/
theorem C2_brick_collision (g : BrickBreaker) :
    (brickBounce g).bricks
      = g.bricks.filterMap (fun b =>
          if overlapsBall g.ball.x1 g.ball.y1 g.ball.x2 g.ball.y2 b then
            if b.hits - 1 ≤ 0 then none
            else some ⟨b.x, b.y, b.hits - 1, brickColors (b.hits - 1)⟩
          else some b)
    ∧ (brickBounce g).ball.vy
        = (-1) ^ overlapCount g.ball.x1 g.ball.y1 g.ball.x2 g.ball.y2 g.bricks
            * g.ball.vy
    ∧ (brickBounce g).score
        = g.score
          + 10 * (g.bricks.countP fun b =>
              decide (overlapsBall g.ball.x1 g.ball.y1 g.ball.x2 g.ball.y2 b
                ∧ b.hits - 1 ≤ 0))
          + 5 * (g.bricks.countP fun b =>
              decide (overlapsBall g.ball.x1 g.ball.y1 g.ball.x2 g.ball.y2 b
                ∧ 0 < b.hits - 1)) := by
  have h := brickHits_spec g.ball.x1 g.ball.y1 g.ball.x2 g.ball.y2
    g.bricks g.ball.vy g.score
  exact ⟨h.1, h.2.1, h.2.2⟩

/-! ## Claim C8: the `hypot(vx, vy) == speed` invariant -/

lemma set_speed_some_elim (b : Ball) (s : ℝ) (b' : Ball)
    (h : b.set_speed s = some b') :
    0 < Real.sqrt (b.vx ^ 2 + b.vy ^ 2)
    ∧ b' = { b with vx := b.vx * (s / Real.sqrt (b.vx ^ 2 + b.vy ^ 2)),
                    vy := b.vy * (s / Real.sqrt (b.vx ^ 2 + b.vy ^ 2)),
                    speed := s } := by
  by_cases hm : Real.sqrt (b.vx ^ 2 + b.vy ^ 2) = 0
  · simp [Ball.set_speed, hm] at h
  · refine ⟨lt_of_le_of_ne (Real.sqrt_nonneg _) (Ne.symm hm), ?_⟩
    simp only [Ball.set_speed, if_neg hm, Option.some.injEq] at h
    exact h.symm

lemma set_speed_norm (b b' : Ball) (s : ℝ) (h : b.set_speed s = some b')
    (hs : 0 ≤ s) : Real.sqrt (b'.vx ^ 2 + b'.vy ^ 2) = b'.speed := by
  obtain ⟨hmag, rfl⟩ := set_speed_some_elim b s b' h
  rw [hypot_scale _ _ _ (div_nonneg hs hmag.le), mul_comm]
  field_simp

lemma atan2_smul (y x c : ℝ) (hc : 0 < c) : atan2 (y * c) (x * c) = atan2 y x := by
  unfold atan2
  rw [show Complex.ofReal (x * c) + Complex.ofReal (y * c) * Complex.I
        = (c : ℂ) * (Complex.ofReal x + Complex.ofReal y * Complex.I) from by
      push_cast; ring]
  exact Complex.arg_real_mul _ hc

lemma reflect_norm (s θ : ℝ) (hs : 0 ≤ s) :
    Real.sqrt ((s * Real.sin θ) ^ 2 + (-|s * Real.cos θ|) ^ 2) = s := by
  rw [neg_sq, sq_abs]
  exact hypot_sin_cos s θ hs

lemma launch_norm (s θ : ℝ) (hs : 0 ≤ s) :
    Real.sqrt ((s * Real.cos θ) ^ 2 + (-|s * Real.sin θ|) ^ 2) = s := by
  rw [neg_sq, sq_abs, add_comm]
  exact hypot_sin_cos s θ hs

/-- C8: `hypot(vx, vy) == speed` holds after every speed-changing
operation: after construction, after `set_speed` / `increase_speed` on a
non-zero current velocity (which also preserve the direction
`atan2(vy, vx)` when the target speed is positive), after `bounce_x` and
`bounce_y` (which preserve both sides), and after a paddle reflection. -/
theorem C8_speed_invariant :
    (∀ x y radius speed angle : ℝ, 0 ≤ speed →
       Real.sqrt ((Ball.make x y radius speed angle).vx ^ 2
         + (Ball.make x y radius speed angle).vy ^ 2)
         = (Ball.make x y radius speed angle).speed)
    ∧ (∀ (b b' : Ball) (s : ℝ), b.set_speed s = some b' → 0 ≤ s →
        Real.sqrt (b'.vx ^ 2 + b'.vy ^ 2) = b'.speed
        ∧ (0 < s → atan2 b'.vy b'.vx = atan2 b.vy b.vx))
    ∧ (∀ (b b' : Ball) (d : ℝ), b.increase_speed d = some b' →
        0 ≤ b.speed + d → Real.sqrt (b'.vx ^ 2 + b'.vy ^ 2) = b'.speed)
    ∧ (∀ b : Ball, Real.sqrt (b.vx ^ 2 + b.vy ^ 2) = b.speed →
        Real.sqrt (b.bounce_x.vx ^ 2 + b.bounce_x.vy ^ 2) = b.bounce_x.speed
        ∧ Real.sqrt (b.bounce_y.vx ^ 2 + b.bounce_y.vy ^ 2) = b.bounce_y.speed)
    ∧ (∀ g : BrickBreaker, 0 ≤ g.ball.speed →
        Real.sqrt (g.ball.vx ^ 2 + g.ball.vy ^ 2) = g.ball.speed →
        Real.sqrt ((paddleBounce g).ball.vx ^ 2 + (paddleBounce g).ball.vy ^ 2)
          = (paddleBounce g).ball.speed) := by
  refine ⟨?_, ?_, ?_, ?_, ?_⟩
  · intro x y radius s a hs
    simp only [Ball.make]
    exact launch_norm s _ hs
  · intro b b' s h hs
    refine ⟨set_speed_norm b b' s h hs, ?_⟩
    intro hpos
    obtain ⟨hmag, rfl⟩ := set_speed_some_elim b s b' h
    exact atan2_smul b.vy b.vx _ (div_pos hpos hmag)
  · intro b b' d h hd
    exact set_speed_norm b b' (b.speed + d) h hd
  · intro b hb
    constructor
    · simpa only [Ball.bounce_x, neg_sq] using hb
    · simpa only [Ball.bounce_y, neg_sq] using hb
  · intro g hs hinv
    by_cases htrig : g.ball.y2 ≥ g.paddle.y1 ∧ g.ball.x2 ≥ g.paddle.x1
        ∧ g.ball.x1 ≤ g.paddle.x2 ∧ 0 < g.ball.vy
    · simp only [paddleBounce, if_pos htrig]
      exact reflect_norm g.ball.speed _ hs
    · simp only [paddleBounce, if_neg htrig]
      exact hinv

/-- C8 witness: the bounce part of the invariant at the concrete velocity
`(3, 4)` with `speed = 5`. -/
theorem C8_witness :
    Real.sqrt ((Ball.mk 0 0 16 16 3 4 5).bounce_x.vx ^ 2
      + (Ball.mk 0 0 16 16 3 4 5).bounce_x.vy ^ 2)
      = (Ball.mk 0 0 16 16 3 4 5).bounce_x.speed :=
  (C8_speed_invariant.2.2.2.1 (Ball.mk 0 0 16 16 3 4 5)
    (show Real.sqrt ((3 : ℝ) ^ 2 + 4 ^ 2) = 5 from by
      rw [show (3 : ℝ) ^ 2 + 4 ^ 2 = 5 ^ 2 from by norm_num,
        Real.sqrt_sq (by norm_num)])).1

/-! ## Claim C1: the paddle reflection -/

/-- The quantity `offset = (ball_center - paddle_center) / (paddle.width/2)`
computed in the paddle branch of `check_collision`. -/
noncomputable def offsetOf (g : BrickBreaker) : ℝ :=
  ((g.ball.x1 + g.ball.x2) / 2 - (g.paddle.x1 + g.paddle.x2) / 2) /
    (g.paddle.width / 2)

/-- C1: the paddle bounce triggers exactly when the ball's bottom edge has
reached the paddle's top edge, the horizontal extents overlap, and the ball
moves downward; on trigger, with `angle = offset * 75°`, the new velocity
is `vx = speed*sin(angle)`, `vy = -speed*cos(angle)`; it always points
upward with magnitude `speed`, and a strike at the exact paddle center
returns vertically (`vx = 0`, `vy = -speed`).  The geometric hypotheses
hold in every reachable state: the stored paddle width is the default 110,
the paddle rectangle is never wider than that, the ball box is 16 wide, and
the speed (initially 5, only ever increased) is positive. -/
theorem C1_paddle_reflection (g : BrickBreaker)
    (hwidth : g.paddle.width = 110)
    (hpw : g.paddle.x2 - g.paddle.x1 ≤ 110)
    (hball : g.ball.x2 = g.ball.x1 + 16)
    (hs : 0 < g.ball.speed) :
    (¬(g.ball.y2 ≥ g.paddle.y1 ∧ g.ball.x2 ≥ g.paddle.x1 ∧ g.ball.x1 ≤ g.paddle.x2
        ∧ 0 < g.ball.vy) → paddleBounce g = g)
    ∧ (g.ball.y2 ≥ g.paddle.y1 → g.ball.x2 ≥ g.paddle.x1 →
        g.ball.x1 ≤ g.paddle.x2 → 0 < g.ball.vy →
        (paddleBounce g).ball.vx
            = g.ball.speed * Real.sin (offsetOf g * (75 * (Real.pi / 180)))
        ∧ (paddleBounce g).ball.vy
            = -(g.ball.speed * Real.cos (offsetOf g * (75 * (Real.pi / 180))))
        ∧ (paddleBounce g).ball.vy < 0
        ∧ Real.sqrt ((paddleBounce g).ball.vx ^ 2 + (paddleBounce g).ball.vy ^ 2)
            = g.ball.speed
        ∧ ((g.ball.x1 + g.ball.x2) / 2 = (g.paddle.x1 + g.paddle.x2) / 2 →
            (paddleBounce g).ball.vx = 0
            ∧ (paddleBounce g).ball.vy = -g.ball.speed)) := by
  constructor
  · intro h
    simp only [paddleBounce, if_neg h]
  · intro h1 h2 h3 h4
    have htrig : g.ball.y2 ≥ g.paddle.y1 ∧ g.ball.x2 ≥ g.paddle.x1
        ∧ g.ball.x1 ≤ g.paddle.x2 ∧ 0 < g.ball.vy := ⟨h1, h2, h3, h4⟩
    have hpi := Real.pi_pos
    have hcenter : |(g.ball.x1 + g.ball.x2) / 2 - (g.paddle.x1 + g.paddle.x2) / 2|
        ≤ 63 := by
      rw [abs_le]
      constructor <;> [skip; skip] <;> nlinarith [h2, h3, hball, hpw]
    have hoff : |offsetOf g| ≤ 63 / 55 := by
      rw [offsetOf, hwidth, abs_div]
      rw [show |(110 : ℝ) / 2| = 55 from by norm_num]
      rw [div_le_div_iff₀ (by norm_num) (by norm_num)]
      nlinarith [hcenter]
    have hangle : |offsetOf g * (75 * (Real.pi / 180))| < Real.pi / 2 := by
      rw [abs_mul, abs_of_pos (by positivity : (0 : ℝ) < 75 * (Real.pi / 180))]
      calc |offsetOf g| * (75 * (Real.pi / 180))
          ≤ 63 / 55 * (75 * (Real.pi / 180)) :=
            mul_le_mul_of_nonneg_right hoff (by positivity)
        _ < Real.pi / 2 := by nlinarith [hpi]
    have hcos : 0 < Real.cos (offsetOf g * (75 * (Real.pi / 180))) := by
      refine Real.cos_pos_of_mem_Ioo ⟨?_, ?_⟩
      · have := (abs_lt.mp hangle).1
        linarith
      · exact (abs_lt.mp hangle).2
    have hprod : 0 < g.ball.speed * Real.cos (offsetOf g * (75 * (Real.pi / 180))) :=
      mul_pos hs hcos
    have heq : paddleBounce g
        = { g with ball := { g.ball with
            vx := g.ball.speed * Real.sin (offsetOf g * (75 * (Real.pi / 180))),
            vy := -|g.ball.speed * Real.cos (offsetOf g * (75 * (Real.pi / 180)))| } } := by
      simp only [paddleBounce, if_pos htrig, offsetOf]
    rw [heq]
    refine ⟨rfl, ?_, ?_, ?_, ?_⟩
    · dsimp only
      rw [abs_of_pos hprod]
    · dsimp only
      rw [abs_of_pos hprod]
      linarith
    · dsimp only
      exact reflect_norm g.ball.speed _ hs.le
    · intro hc
      have hoff0 : offsetOf g = 0 := by
        rw [offsetOf, hc]
        simp
      dsimp only
      rw [hoff0, zero_mul, Real.sin_zero, Real.cos_zero, mul_zero, mul_one,
        abs_of_pos hs]
      exact ⟨rfl, rfl⟩

/-- C1 witness: a concrete downward-moving ball striking the paddle dead
center with speed 5 leaves with an upward velocity of magnitude 5. -/
theorem C1_witness :
    (paddleBounce ⟨0, 1, 3, true, false, Paddle.mk 305 478 415 490 110,
        Ball.mk 352 470 368 486 1 3 5, []⟩).ball.vy < 0
    ∧ Real.sqrt ((paddleBounce ⟨0, 1, 3, true, false, Paddle.mk 305 478 415 490 110,
        Ball.mk 352 470 368 486 1 3 5, []⟩).ball.vx ^ 2
      + (paddleBounce ⟨0, 1, 3, true, false, Paddle.mk 305 478 415 490 110,
        Ball.mk 352 470 368 486 1 3 5, []⟩).ball.vy ^ 2) = 5 := by
  have h := (C1_paddle_reflection
    ⟨0, 1, 3, true, false, Paddle.mk 305 478 415 490 110,
      Ball.mk 352 470 368 486 1 3 5, []⟩
    (by norm_num) (by norm_num) (by norm_num) (by norm_num)).2
    (by norm_num) (by norm_num) (by norm_num) (by norm_num)
  exact ⟨h.2.2.1, h.2.2.2.1⟩

/-! ## Structural lemmas about the loop -/

lemma loop_paused (g : BrickBreaker) (h : g.paused = true) :
    BrickBreaker.loop g = some g := by
  simp [BrickBreaker.loop, h]

lemma wallBounce_score (g : BrickBreaker) : (wallBounce g).score = g.score := rfl

lemma paddleBounce_const (g : BrickBreaker) :
    (paddleBounce g).score = g.score ∧ (paddleBounce g).lives = g.lives
    ∧ (paddleBounce g).started = g.started ∧ (paddleBounce g).paused = g.paused
    ∧ (paddleBounce g).level = g.level ∧ (paddleBounce g).paddle = g.paddle
    ∧ (paddleBounce g).bricks = g.bricks := by
  simp only [paddleBounce]
  split <;> simp

lemma brickBounce_score (g : BrickBreaker) :
    (brickBounce g).score
      = g.score
        + 10 * (g.bricks.countP fun b =>
            decide (overlapsBall g.ball.x1 g.ball.y1 g.ball.x2 g.ball.y2 b
              ∧ b.hits - 1 ≤ 0))
        + 5 * (g.bricks.countP fun b =>
            decide (overlapsBall g.ball.x1 g.ball.y1 g.ball.x2 g.ball.y2 b
              ∧ 0 < b.hits - 1)) :=
  (brickHits_spec g.ball.x1 g.ball.y1 g.ball.x2 g.ball.y2
    g.bricks g.ball.vy g.score).2.2

lemma check_collision_score (g : BrickBreaker) :
    ∃ a b : ℕ,
      (BrickBreaker.check_collision g).score = g.score + 10 * a + 5 * b := by
  obtain ⟨a, b, hab⟩ : ∃ a b : ℕ,
      (brickBounce (paddleBounce (wallBounce g))).score
        = (paddleBounce (wallBounce g)).score + 10 * a + 5 * b :=
    ⟨_, _, brickBounce_score _⟩
  refine ⟨a, b, ?_⟩
  show (brickBounce (paddleBounce (wallBounce g))).score = _
  rw [hab, (paddleBounce_const (wallBounce g)).1, wallBounce_score]

lemma check_collision_lives (g : BrickBreaker) :
    (BrickBreaker.check_collision g).lives = g.lives := by
  show (brickBounce (paddleBounce (wallBounce g))).lives = g.lives
  calc (brickBounce (paddleBounce (wallBounce g))).lives
      = (paddleBounce (wallBounce g)).lives := rfl
    _ = (wallBounce g).lives := (paddleBounce_const (wallBounce g)).2.1
    _ = g.lives := rfl

lemma levelCheck_score (g g' : BrickBreaker) (h : levelCheck g = some g') :
    g'.score = g.score := by
  unfold levelCheck at h
  by_cases he : g.bricks.isEmpty
  · rw [if_pos he] at h
    cases hm : g.ball.increase_speed (0.8 : ℝ) with
    | none => rw [hm] at h; cases h
    | some b =>
      rw [hm] at h
      obtain rfl := Option.some.inj h
      rfl
  · rw [if_neg he] at h
    obtain rfl := Option.some.inj h
    rfl

lemma lifeCheck_score (g g' : BrickBreaker) (h : lifeCheck g = some g') :
    g'.score = g.score := by
  unfold lifeCheck at h
  by_cases hmiss : g.ball.y2 ≥ fieldH
  · rw [if_pos hmiss] at h
    by_cases hl : g.lives - 1 ≤ 0
    · simp only [if_pos hl] at h
      obtain rfl := Option.some.inj h
      rfl
    · simp only [if_neg hl] at h
      have h2 := levelCheck_score _ g' h
      exact h2
  · rw [if_neg hmiss] at h
    exact levelCheck_score _ _ h

lemma loop_score (g g' : BrickBreaker) (h : BrickBreaker.loop g = some g') :
    ∃ a b : ℕ, g'.score = g.score + 10 * a + 5 * b := by
  unfold BrickBreaker.loop at h
  by_cases hp : g.paused = false ∧ g.started = true
  · rw [if_pos hp] at h
    obtain ⟨a, b, hab⟩ :=
      check_collision_score { g with ball := g.ball.move }
    refine ⟨a, b, ?_⟩
    rw [lifeCheck_score _ _ h, hab]
  · rw [if_neg hp] at h
    obtain rfl := Option.some.inj h
    exact ⟨0, 0, by omega⟩

lemma sessionStep_score (g g' : BrickBreaker) (h : SessionStep g g') :
    ∃ a b : ℕ, g'.score = g.score + 10 * a + 5 * b := by
  cases h with
  | tickStep a ht => exact loop_score _ _ ht
  | mouse x =>
    refine ⟨0, 0, ?_⟩
    simp only [BrickBreaker.mouse_move]
    split <;> simp
  | key d => exact ⟨0, 0, by simp [BrickBreaker.keyboard_move]⟩
  | start =>
    refine ⟨0, 0, ?_⟩
    simp only [BrickBreaker.start_ball]
    split <;> simp
  | pause => exact ⟨0, 0, by simp [BrickBreaker.toggle_pause]⟩

/-! ## Claim C10: the score invariant -/

/-- C10: within a session the score starts at 0 and is only ever increased,
by exactly 10 per destroyed brick and 5 per surviving brick hit; along
every session step the score never decreases, and in every reachable state
it is a (non-negative) multiple of 5. -/
theorem C10_score_invariant :
    (∀ angle : ℝ, (initGame angle).score = 0)
    ∧ (∀ g : BrickBreaker, (brickBounce g).score
        = g.score
          + 10 * (g.bricks.countP fun b =>
              decide (overlapsBall g.ball.x1 g.ball.y1 g.ball.x2 g.ball.y2 b
                ∧ b.hits - 1 ≤ 0))
          + 5 * (g.bricks.countP fun b =>
              decide (overlapsBall g.ball.x1 g.ball.y1 g.ball.x2 g.ball.y2 b
                ∧ 0 < b.hits - 1)))
    ∧ (∀ g g' : BrickBreaker, SessionStep g g' → g.score ≤ g'.score)
    ∧ (∀ (angle : ℝ) (g : BrickBreaker), Reachable angle g → 5 ∣ g.score) := by
  refine ⟨fun _ => rfl, brickBounce_score, ?_, ?_⟩
  · intro g g' h
    obtain ⟨a, b, hab⟩ := sessionStep_score g g' h
    omega
  · intro angle g h
    induction h with
    | refl => exact ⟨0, rfl⟩
    | tail hsteps hstep ih =>
      obtain ⟨a, b, hab⟩ := sessionStep_score _ _ hstep
      rw [hab]
      omega

/-- C10 witness: the freshly constructed session (launch angle 90°) has
score 0, a multiple of 5. -/
theorem C10_witness : (initGame 90).score = 0 ∧ 5 ∣ (initGame 90).score :=
  ⟨C10_score_invariant.1 90,
   C10_score_invariant.2.2.2 90 (initGame 90) Relation.ReflTransGen.refl⟩

/-! ## Claim C6: losing a life -/

/-- C6: when the moved ball's bottom edge has reached the field height on a
playing tick (with `g1` the state after the move and collision phases),
`lives` is decremented by exactly one; with lives remaining the ball is
re-parked above the paddle and the game waits for a new start
(`started = false`); at `lives - 1 ≤ 0` the game transitions to the
terminal game-over state (`started = false`, `paused = true`), skipping the
level check, and a paused state is a fixed point of the loop body (and the
real scheduler stops re-arming the tick entirely). -/
theorem C6_life_loss (g g1 : BrickBreaker)
    (hp : g.paused = false) (hst : g.started = true)
    (hg1 : BrickBreaker.check_collision { g with ball := g.ball.move } = g1)
    (hmiss : g1.ball.y2 ≥ fieldH) :
    g1.lives = g.lives
    ∧ (g1.lives - 1 ≤ 0 →
        BrickBreaker.loop g
          = some (BrickBreaker.game_over { g1 with lives := g1.lives - 1 })
        ∧ (BrickBreaker.game_over { g1 with lives := g1.lives - 1 }).lives
            = g.lives - 1
        ∧ (BrickBreaker.game_over { g1 with lives := g1.lives - 1 }).started = false
        ∧ (BrickBreaker.game_over { g1 with lives := g1.lives - 1 }).paused = true
        ∧ (∀ h : BrickBreaker, h.paused = true → BrickBreaker.loop h = some h))
    ∧ (0 < g1.lives - 1 → g1.bricks ≠ [] →
        BrickBreaker.loop g
          = some { repositionBall { g1 with lives := g1.lives - 1 }
                   with started := false }
        ∧ ({ repositionBall { g1 with lives := g1.lives - 1 }
             with started := false }).lives = g.lives - 1
        ∧ ({ repositionBall { g1 with lives := g1.lives - 1 }
             with started := false }).started = false
        ∧ ({ repositionBall { g1 with lives := g1.lives - 1 }
             with started := false }).ball.x1
            = (g1.paddle.x1 + g1.paddle.x2) / 2 - 8
        ∧ ({ repositionBall { g1 with lives := g1.lives - 1 }
             with started := false }).ball.x2
            = (g1.paddle.x1 + g1.paddle.x2) / 2 + 8
        ∧ ({ repositionBall { g1 with lives := g1.lives - 1 }
             with started := false }).ball.y2 = fieldH - 60 + 8) := by
  have hlives : g1.lives = g.lives := by
    rw [← hg1]
    exact check_collision_lives _
  have hloop : BrickBreaker.loop g = lifeCheck g1 := by
    unfold BrickBreaker.loop
    rw [if_pos ⟨hp, hst⟩, hg1]
  refine ⟨hlives, ?_, ?_⟩
  · intro hl
    refine ⟨?_, ?_, rfl, rfl, loop_paused⟩
    · rw [hloop]
      unfold lifeCheck
      rw [if_pos hmiss, if_pos hl]
    · show g1.lives - 1 = g.lives - 1
      rw [hlives]
  · intro hl hbr
    refine ⟨?_, ?_, rfl, rfl, rfl, rfl⟩
    · rw [hloop]
      unfold lifeCheck
      rw [if_pos hmiss, if_neg (by omega : ¬g1.lives - 1 ≤ 0)]
      unfold levelCheck
      rw [if_neg]
      show ¬(g1.bricks.isEmpty = true)
      simpa using hbr
    · show g1.lives - 1 = g.lives - 1
      rw [hlives]

/-- A concrete playing state (3 lives) one tick before the ball exits the
bottom: ball at `(100, 500)`–`(116, 516)` moving straight down at 5. -/
noncomputable def c6Start : BrickBreaker :=
  ⟨0, 1, 3, true, false, Paddle.mk 305 478 415 490 110,
   Ball.mk 100 500 116 516 0 5 5, [Brick.make 400 70 2]⟩

/-- The state reached from `c6Start` after the move and collision phases:
the ball advanced to `(100, 505)`–`(116, 521)`; no wall, paddle or brick
collision fires. -/
noncomputable def c6Mid : BrickBreaker :=
  ⟨0, 1, 3, true, false, Paddle.mk 305 478 415 490 110,
   Ball.mk 100 505 116 521 0 5 5, [Brick.make 400 70 2]⟩

lemma c6_mid_eq :
    BrickBreaker.check_collision { c6Start with ball := c6Start.ball.move }
      = c6Mid := by
  simp only [c6Start, c6Mid, Ball.move, BrickBreaker.check_collision, wallBounce,
    paddleBounce, brickBounce, Ball.bounce_x, Ball.bounce_y, Brick.make]
  norm_num [brickHits, overlapsBall, fieldW]

/-- C6 witness: the loop on `c6Start` decrements lives from 3 to 2,
re-parks the ball and clears `started`. -/
theorem C6_witness :
    BrickBreaker.loop c6Start
      = some { repositionBall { c6Mid with lives := c6Mid.lives - 1 }
               with started := false }
    ∧ ({ repositionBall { c6Mid with lives := c6Mid.lives - 1 }
         with started := false }).started = false
    ∧ ({ repositionBall { c6Mid with lives := c6Mid.lives - 1 }
         with started := false }).lives = 2 := by
  have h := (C6_life_loss c6Start c6Mid rfl rfl c6_mid_eq
    (by norm_num [c6Mid, fieldH])).2.2 (by norm_num [c6Mid])
    (by simp [c6Mid])
  refine ⟨h.1, h.2.2.1, ?_⟩
  rw [h.2.1]
  norm_num [c6Start]

/-! ## Claim C5: launch direction at game / life / level start -/

/-- A concrete playing state: ball at `(200, 500)`–`(216, 516)` moving
straight down at 4, three lives, one distant brick. -/
noncomputable def c5Start : BrickBreaker :=
  ⟨0, 1, 3, true, false, Paddle.mk 305 478 415 490 110,
   Ball.mk 200 500 216 516 0 4 5, [Brick.make 400 70 3]⟩

/-- `c5Start` after the move and collision phases of one tick: the ball's
bottom edge has exactly reached the field height, still moving downward. -/
noncomputable def c5Mid : BrickBreaker :=
  ⟨0, 1, 3, true, false, Paddle.mk 305 478 415 490 110,
   Ball.mk 200 504 216 520 0 4 5, [Brick.make 400 70 3]⟩

/-- The state after the full tick: a life was lost, the ball was re-parked
above the paddle with its velocity untouched — still pointing downward. -/
noncomputable def c5End : BrickBreaker :=
  ⟨0, 1, 2, false, false, Paddle.mk 305 478 415 490 110,
   Ball.mk 352 452 368 468 0 4 5, [Brick.make 400 70 3]⟩

lemma c5_mid_eq :
    BrickBreaker.check_collision { c5Start with ball := c5Start.ball.move }
      = c5Mid := by
  simp only [c5Start, c5Mid, Ball.move, BrickBreaker.check_collision, wallBounce,
    paddleBounce, brickBounce, Ball.bounce_x, Ball.bounce_y, Brick.make]
  norm_num [brickHits, overlapsBall, fieldW]

/-- C5 counterexample: a tick in which a life is lost (3 → 2 lives) enters
a press-to-start period (`started = false`) whose ball still has the
pre-miss downward velocity `vy = 4 > 0`: the velocity is not a fresh
randomized upward launch at this life start. -/
theorem C5_cex_life_start_not_randomized :
    BrickBreaker.loop c5Start = some c5End
    ∧ c5End.started = false ∧ 0 < c5End.ball.vy := by
  refine ⟨?_, rfl, by norm_num [c5End]⟩
  have hloop : BrickBreaker.loop c5Start = lifeCheck c5Mid := by
    unfold BrickBreaker.loop
    rw [if_pos ⟨rfl, rfl⟩, c5_mid_eq]
  rw [hloop]
  unfold lifeCheck
  rw [if_pos (by norm_num [c5Mid, fieldH] : c5Mid.ball.y2 ≥ fieldH),
    if_neg (by norm_num [c5Mid] : ¬c5Mid.lives - 1 ≤ 0)]
  unfold levelCheck
  rw [if_neg]
  · norm_num [c5Mid, c5End, repositionBall, fieldH]
  · simp [c5Mid, repositionBall]

/-- C5 (amended): the launch direction is randomized only where the ball is
constructed (game start and restart): for any drawn angle in `[30°, 150°]`
the initial velocity points upward (`vy < 0`) with the stated components.
After a life loss (lives remaining) the ball is repositioned above the
paddle, not recreated: velocity and speed are unchanged, so the following
press-to-start period may begin with a downward velocity.  After a level
completion the ball is likewise repositioned and its velocity only rescaled
by `increase_speed(0.8)` — a positive multiple of the old direction, not a
fresh random launch. -/
theorem C5_launch_spec :
    (∀ x y radius speed angle : ℝ, 30 ≤ angle → angle ≤ 150 → 0 < speed →
      (Ball.make x y radius speed angle).vx
          = speed * Real.cos (angle * (Real.pi / 180))
      ∧ (Ball.make x y radius speed angle).vy
          = -(speed * Real.sin (angle * (Real.pi / 180)))
      ∧ (Ball.make x y radius speed angle).vy < 0)
    ∧ (∀ g : BrickBreaker, g.ball.y2 ≥ fieldH → 0 < g.lives - 1 →
        g.bricks ≠ [] →
        lifeCheck g = some { repositionBall { g with lives := g.lives - 1 }
                             with started := false }
        ∧ ({ repositionBall { g with lives := g.lives - 1 }
             with started := false }).ball.vx = g.ball.vx
        ∧ ({ repositionBall { g with lives := g.lives - 1 }
             with started := false }).ball.vy = g.ball.vy
        ∧ ({ repositionBall { g with lives := g.lives - 1 }
             with started := false }).ball.speed = g.ball.speed
        ∧ ({ repositionBall { g with lives := g.lives - 1 }
             with started := false }).started = false)
    ∧ (∀ (g : BrickBreaker) (b' : Ball), ¬g.ball.y2 ≥ fieldH →
        g.bricks = [] → g.ball.increase_speed (0.8 : ℝ) = some b' →
        lifeCheck g
          = some { repositionBall { g with level := g.level + 1, ball := b', bricks := buildLevel (g.level + 1) } with started := false }
        ∧ (0 < g.ball.speed + 0.8 →
            ∃ c : ℝ, 0 < c ∧ b'.vx = c * g.ball.vx ∧ b'.vy = c * g.ball.vy)) := by
  refine ⟨?_, ?_, ?_⟩
  · intro x y r s a h30 h150 hs
    have hpi := Real.pi_pos
    have hrad0 : 0 < a * (Real.pi / 180) := mul_pos (by linarith) (by positivity)
    have hradpi : a * (Real.pi / 180) < Real.pi := by nlinarith
    have hsin : 0 < Real.sin (a * (Real.pi / 180)) :=
      Real.sin_pos_of_pos_of_lt_pi hrad0 hradpi
    refine ⟨rfl, ?_, ?_⟩
    · show -|s * Real.sin (a * (Real.pi / 180))|
          = -(s * Real.sin (a * (Real.pi / 180)))
      rw [abs_of_pos (mul_pos hs hsin)]
    · show -|s * Real.sin (a * (Real.pi / 180))| < 0
      rw [abs_of_pos (mul_pos hs hsin)]
      have := mul_pos hs hsin
      linarith
  · intro g hmiss hl hbr
    refine ⟨?_, rfl, rfl, rfl, rfl⟩
    unfold lifeCheck
    rw [if_pos hmiss, if_neg (by omega : ¬g.lives - 1 ≤ 0)]
    unfold levelCheck
    rw [if_neg]
    show ¬(g.bricks.isEmpty = true)
    simpa using hbr
  · intro g b' hmiss hbr hinc
    constructor
    · unfold lifeCheck
      rw [if_neg hmiss]
      unfold levelCheck
      rw [if_pos (by simp [hbr] : g.bricks.isEmpty = true), hinc]
    · obtain ⟨hmag, rfl⟩ :=
        set_speed_some_elim g.ball (g.ball.speed + 0.8) b' hinc
      intro hpos
      exact ⟨(g.ball.speed + 0.8) / Real.sqrt (g.ball.vx ^ 2 + g.ball.vy ^ 2),
        div_pos hpos hmag, by ring, by ring⟩

/-- C5 witness: the amended theorem's launch clause at angle 90°, speed 5:
the constructed ball moves upward. -/
theorem C5_witness :
    (30 : ℝ) ≤ 90 ∧ (90 : ℝ) ≤ 150 ∧ (0 : ℝ) < 5
    ∧ (Ball.make 360 460 8 5 90).vy < 0 :=
  ⟨by norm_num, by norm_num, by norm_num,
   (C5_launch_spec.1 360 460 8 5 90 (by norm_num) (by norm_num)
     (by norm_num)).2.2⟩

end BrickGame
